import Mathlib

/-!
Verification development for the gitian signature verification tool
(`gitian-verify.py`): a shallow embedding of its data model and core
operations, together with theorems about the per-signer status logic,
the signature classification, the build naming function and the
missing-key aggregation.

Modelling conventions:
* Python byte strings (signature blobs, assert file contents) are
  modelled as `String`; the GPG backend and the YAML manifest loader are
  abstract function parameters, since the tool treats them as external
  collaborators.
* Python dictionaries keyed by strings are modelled as total functions
  into `Option`, and `defaultdict(int)` / `defaultdict(Missing(0))` as
  total functions into `Nat` with default `0`.
* A Python function that can raise an uncaught exception is modelled as
  returning `Option`, with `none` for the exceptional outcome.
-/

namespace GitianVerify

/-- Verification status enumeration, from the `Status` enum of
`gitian-verify.py` (values `OK = 0` through `MISMATCH = 6`). -/
inductive Status where
  | OK           -- Full match
  | NO_FILE      -- Result file or sig file not found
  | UNKNOWN_KEY  -- Name/key combination not in keys.txt
  | MISSING_KEY  -- Unknown PGP key
  | EXPIRED_KEY  -- PGP key is expired
  | INVALID_SIG  -- Known key but invalid signature
  | MISMATCH     -- Correct signature but mismatching file
deriving DecidableEq, Repr

-- Bit field for missing keys, from the `Missing(IntFlag)` class.
namespace Missing

/-- Missing from GPG. -/
def GPG : Nat := 1

/-- Missing from keys.txt. -/
def KEYSTXT : Nat := 2

end Missing

/-- Result tuple of `VerificationInterface.verify_detached`:
`(verify_ok, p_fingerprint, s_fingerprint, error)`.  The primary
fingerprint is `none` when the key is not known to the keyring; the
signing fingerprint always comes from the signature metadata. -/
structure VerificationResult where
  verify_ok : Bool
  p_fingerprint : Option String
  s_fingerprint : String
  error : Option Nat
deriving DecidableEq, Repr

-- Error codes of `VerificationInterface`.
namespace VerificationInterface

/-- Error value `MISSING_KEY = 0`. -/
def MISSING_KEY : Nat := 0

/-- Error value `BAD = 1`. -/
def BAD : Nat := 1

/-- Error value `EXPIRED_KEY = 2`. -/
def EXPIRED_KEY : Nat := 2

end VerificationInterface

/-- One signature as reported by the GPG backend: its fingerprint and
the two summary bits the code inspects (`sigsum.KEY_MISSING` and
`sigsum.KEY_EXPIRED`). -/
structure GpgSignatureInfo where
  fpr : String
  key_missing : Bool
  key_expired : Bool
deriving DecidableEq, Repr

/-- The outcome object `r` produced by `gpg.Context.verify` (possibly
recovered from a `BadSignatures` exception): the list of signatures. -/
structure GpgVerifyResult where
  signatures : List GpgSignatureInfo
deriving DecidableEq, Repr

/-- Embedding of `VerificationInterface.verify_detached` (lines 66-102).
`get_key_fpr` models `ctx.get_key(fpr).fpr`, which the code only calls
when the key is known to the keyring; `verify_ok` records whether
`ctx.verify` raised `BadSignatures`; `r` is the backend result object.
The `none` outcome models the `assert(len(r.signatures) == 1)`
failing. -/
def verify_detached (get_key_fpr : String → String) (verify_ok : Bool)
    (r : GpgVerifyResult) : Option VerificationResult :=
  match r.signatures with
  | [s] =>
    let s_fingerprint := s.fpr
    if s.key_missing then
      -- the key is unknown to gnupg: no primary fingerprint available
      some { verify_ok := verify_ok, p_fingerprint := none,
             s_fingerprint := s_fingerprint,
             error := some VerificationInterface.MISSING_KEY }
    else
      -- key is known to gnupg
      let error : Option Nat :=
        if s.key_expired then some VerificationInterface.EXPIRED_KEY
        else if verify_ok = false then some VerificationInterface.BAD
        else none
      some { verify_ok := verify_ok,
             p_fingerprint := some (get_key_fpr s_fingerprint),
             s_fingerprint := s_fingerprint, error := error }
  | _ => none

/-- A `BuildInfo(build_name, dir_name, package_name)` tuple. -/
structure BuildInfo where
  build_name : String
  dir_name : String
  package_name : String
deriving DecidableEq, Repr

/-- The fixed `BUILDS` table of `get_builds_for`. -/
def BUILDS : List (String × String) := [
  ("linux",        "bitcoin-core-linux-<major>"),
  ("osx-unsigned", "bitcoin-core-osx-<major>"),
  ("win-unsigned", "bitcoin-core-win-<major>"),
  ("osx-signed",   "bitcoin-dmg-signer"),
  ("win-signed",   "bitcoin-win-signer")]

/-- Embedding of Python `str.split('.')` on character lists: split on
the dot character, keeping empty pieces (so `"".split('.') == ['']`). -/
def pySplitDot : List Char → List (List Char)
  | [] => [[]]
  | c :: rest =>
    let r := pySplitDot rest
    if c = '.' then [] :: r
    else
      match r with
      | h :: t => (c :: h) :: t
      | [] => [[c]]

/-- Embedding of Python `int(s)` restricted to nonnegative decimal
literals, the only shape release version components take: `some` of the
value when the string is a nonempty run of digits, `none` (a raised
`ValueError`) otherwise. -/
def digitsToNat? (cs : List Char) : Option Nat :=
  if cs ≠ [] ∧ cs.all (·.isDigit) then
    some (cs.foldl (fun n c => n * 10 + (c.toNat - 48)) 0)
  else none

/-- Worker for `pyReplace`, structurally recursive on a fuel argument
so that it evaluates by kernel reduction; the fuel is always at least
the length of the scanned list, in which case it never runs out. -/
def pyReplaceAux (pat repl : List Char) : Nat → List Char → List Char
  | 0, l => l
  | _ + 1, [] => []
  | fuel + 1, c :: rest =>
    if pat ≠ [] ∧ pat.isPrefixOf (c :: rest) then
      repl ++ pyReplaceAux pat repl fuel (rest.drop (pat.length - 1))
    else
      c :: pyReplaceAux pat repl fuel rest

/-- Embedding of Python `str.replace(pat, repl)` for nonempty patterns:
replace every non-overlapping occurrence of `pat`, scanning left to
right.  (The code only ever replaces the nonempty literals `"<major>"`
and `"bitcoin-core"`.) -/
def pyReplace (pat repl l : List Char) : List Char :=
  pyReplaceAux pat repl l.length l

/-- Embedding of `get_builds_for` (lines 106-130).  `none` models the
exceptions the Python code would raise on a version string without two
dot-separated numeric components (`IndexError` from `vsplit[1]` or
`ValueError` from `int`).  For nonnegative components the Python tuple
comparison `major_n < (0, 19)` is exactly `major = 0 ∧ minor < 19`. -/
def get_builds_for (version : String) : Option (List BuildInfo) :=
  match pySplitDot version.data with
  | v0 :: v1 :: _ =>
    match digitsToNat? v0, digitsToNat? v1 with
    | some major0, some major1 =>
      let major : List Char := v0 ++ '.' :: v1
      some (BUILDS.map (fun build =>
        let dir_name : List Char := version.data ++ '-' :: build.1.data
        let package_name := pyReplace "<major>".data major build.2.data
        let package_name :=
          if major0 = 0 ∧ major1 < 19 then
            -- before 0.19, package names were bitcoin- instead of bitcoin-core
            pyReplace "bitcoin-core".data "bitcoin".data package_name
          else package_name
        { build_name := build.1, dir_name := ⟨dir_name⟩,
          package_name := ⟨package_name⟩ }))
    | _, _ => none
  | _ => none

/-- Package name of the `i`-th build variant for a release version, as
`get_builds_for` produces it. -/
def package_name_at (version : String) (i : Nat) : Option String :=
  (get_builds_for version).bind (fun l => (l.get? i).map BuildInfo.package_name)

/-- One entry of `os.listdir(release_path)` for a build, together with
the parts of the filesystem state `validate_build` inspects underneath
it: whether the entry is a directory, whether the expected result
(`<package>-build.assert`) and signature (`.sig`) files exist in it, and
those files' contents. -/
structure SignerEntry where
  name : String
  isDir : Bool
  hasResult : Bool
  hasSig : Bool
  sigData : String
  resultData : String
deriving DecidableEq, Repr

/-- The mutable state of the signer loop in `validate_build`: the
reference manifest (once established), the `results` dict, the
`missing_keys` defaultdict and the `mismatches` dict. -/
structure BState where
  reference : Option String
  results : String → Option Status
  missing : String × String → Nat
  mismatches : String → Option (String × String)

/-- Python dict assignment `d[k] = v` for a string-keyed dict. -/
def updStatus (m : String → Option Status) (k : String) (v : Status) :
    String → Option Status :=
  fun x => if x = k then some v else m x

/-- Python `missing_keys[k] |= b` on the `defaultdict(lambda: Missing(0))`. -/
def bumpMissing (m : String × String → Nat) (k : String × String) (b : Nat) :
    String × String → Nat :=
  fun x => if x = k then m k ||| b else m x

/-- Python dict assignment `mismatches[k] = v`. -/
def updMismatch (m : String → Option (String × String)) (k : String)
    (v : String × String) : String → Option (String × String) :=
  fun x => if x = k then some v else m x

/-- Python `p_fingerprint or s_fingerprint`: the first operand unless it
is `None` (or the empty, hence falsy, string). -/
def pyOrStr (p : Option String) (s : String) : String :=
  match p with
  | none => s
  | some x => if x = "" then s else x

/-- Embedding of Python `str.lower()` (signer names are ASCII directory
names, for which per-character lowercasing coincides). -/
def pyLower (s : String) : String := ⟨s.data.map Char.toLower⟩

/-- The keys.txt membership test of `validate_build` line 206: whether
`(p_fingerprint, name.lower())` or `(s_fingerprint, name.lower())` is a
pair in the loaded keys list.  A `None` primary fingerprint compares
unequal to every `(str, str)` pair. -/
def keys_mem (keys : List (String × String)) (name : String)
    (vres : VerificationResult) : Bool :=
  (match vres.p_fingerprint with
   | some p => keys.contains (p, pyLower name)
   | none => false) ||
  keys.contains (vres.s_fingerprint, pyLower name)

/-- Embedding of one iteration of the signer loop of `validate_build`
(lines 179-237).  `verify` models `verifier.verify_detached` on the two
files' contents, and `load` models `dict(yaml.safe_load(data))
['out_manifest']`, returning `none` when that would raise (which aborts
the whole build's evaluation, hence the `Option` result). -/
def validate_signer (verify : String → String → VerificationResult)
    (load : String → Option String) (keys : List (String × String))
    (st : BState) (e : SignerEntry) : Option BState :=
  if e.isDir = false then some st
  else if e.hasResult = false ∨ e.hasSig = false then
    some { st with results := updStatus st.results e.name Status.NO_FILE }
  else
    let vres := verify e.sigData e.resultData
    let fingerprint := pyOrStr vres.p_fingerprint vres.s_fingerprint
    let not_in_keys := keys_mem keys e.name vres = false
    let st1 :=
      if not_in_keys then
        { st with missing :=
            bumpMissing st.missing (e.name, fingerprint) Missing.KEYSTXT }
      else st
    if vres.verify_ok = false then -- Invalid signature or missing key
      if vres.error = some VerificationInterface.MISSING_KEY then
        some { st1 with
               missing := bumpMissing st1.missing (e.name, fingerprint)
                 Missing.GPG,
               results := updStatus st1.results e.name Status.MISSING_KEY }
      else if vres.error = some VerificationInterface.EXPIRED_KEY then
        some { st1 with
               results := updStatus st1.results e.name Status.EXPIRED_KEY }
      else
        some { st1 with
               results := updStatus st1.results e.name Status.INVALID_SIG }
    else -- Valid PGP signature
      if not_in_keys then
        -- key/signer pair not in keys.txt: cannot trust it
        some { st1 with
               results := updStatus st1.results e.name Status.MISSING_KEY }
      else
        match load e.resultData with
        | none => none
        | some m =>
          match st1.reference with
          | some ref =>
            if m ≠ ref then
              some { st1 with
                     results := updStatus st1.results e.name Status.MISMATCH,
                     mismatches := updMismatch st1.mismatches e.name (m, ref) }
            else
              some { st1 with
                     results := updStatus st1.results e.name Status.OK }
          | none =>
            -- first one with a correct signature becomes the reference
            some { st1 with
                   results := updStatus st1.results e.name Status.OK,
                   reference := some m }

/-- Embedding of the pinned-reference loading of `validate_build` lines
168-174: when `compare_to` is given, open
`release_path/<compare_to>/<result_file>` (a `FileNotFoundError`, i.e.
`none`, when no directory of that name with the result file exists) and
take its `out_manifest` (a YAML error, i.e. `none`, when `load`
fails). -/
def pinned_reference (load : String → Option String)
    (compare_to : Option String) (entries : List SignerEntry) :
    Option (Option String) :=
  match compare_to with
  | none => some none
  | some c =>
    match entries.find? (fun e => e.name == c && e.isDir && e.hasResult) with
    | none => none
    | some e =>
      match load e.resultData with
      | none => none
      | some m => some (some m)

/-- Embedding of `validate_build` (lines 157-242).  The build directory
is `none` when `release_path` is not a directory (yielding empty
results), otherwise the list of `os.listdir` entries in iteration
order.  The result is the `(results, missing_keys, mismatches)` triple,
or `none` when the Python code would raise an uncaught exception. -/
def validate_build (verify : String → String → VerificationResult)
    (load : String → Option String) (keys : List (String × String))
    (compare_to : Option String) (dir : Option (List SignerEntry)) :
    Option ((String → Option Status) × (String × String → Nat) ×
            (String → Option (String × String))) :=
  match dir with
  | none => some (fun _ => none, fun _ => 0, fun _ => none)
  | some entries =>
    match pinned_reference load compare_to entries with
    | none => none
    | some reference =>
      match entries.foldlM (validate_signer verify load keys)
          { reference := reference, results := fun _ => none,
            missing := fun _ => 0, mismatches := fun _ => none } with
      | none => none
      | some st => some (st.results, st.missing, st.mismatches)

/-- Status cell of the final matrix for one build and one signer:
`all_results[build][name]`, `None` (`NOT_SUBMITTED`) when absent or the
build failed to produce results. -/
def resultOf (r : Option ((String → Option Status) × (String × String → Nat) ×
    (String → Option (String × String)))) (n : String) : Option Status :=
  match r with
  | some out => out.1 n
  | none => none

/-- Missing-key bitflags recorded for one `(signer, fingerprint)` pair
by one build (`0` when none were recorded or the build aborted). -/
def missingOf (r : Option ((String → Option Status) × (String × String → Nat) ×
    (String → Option (String × String)))) (k : String × String) : Nat :=
  match r with
  | some out => out.2.1 k
  | none => 0

/-- Mismatch record for one signer in one build. -/
def mismatchOf (r : Option ((String → Option Status) ×
    (String × String → Nat) × (String → Option (String × String))))
    (n : String) : Option (String × String) :=
  match r with
  | some out => out.2.2 n
  | none => none

/-- Embedding of the missing-key merging of `main` (lines 258, 274-275):
`all_missing_keys[k] |= v` over a `defaultdict(int)`, pointwise across
the per-build missing maps. -/
def merge_missing (maps : List (String × String → Nat)) :
    String × String → Nat :=
  maps.foldl (fun acc m => fun k => acc k ||| m k) (fun _ => 0)

/-- A signer submission that survives both the cryptographic check and
the trust-binding check: directory present, both files present, the
signature verifies, and the (fingerprint, name) pair is in keys.txt.
Only such submissions reach the manifest comparison. -/
def accepted (verify : String → String → VerificationResult)
    (keys : List (String × String)) (e : SignerEntry) : Bool :=
  e.isDir && e.hasResult && e.hasSig &&
    (verify e.sigData e.resultData).verify_ok &&
    keys_mem keys e.name (verify e.sigData e.resultData)

/-- The status one signer receives when a pinned reference manifest
`ref` is in force, read off the branch structure of the signer loop:
`none` for the aborting manifest-parse failure, `some none` for a
skipped non-directory entry, `some (some s)` for an assigned status.
Used to characterise pinned runs of `validate_build`. -/
def pinned_signer_status (verify : String → String → VerificationResult)
    (load : String → Option String) (keys : List (String × String))
    (ref : String) (e : SignerEntry) : Option (Option Status) :=
  if e.isDir = false then some none
  else if e.hasResult = false ∨ e.hasSig = false then some (some Status.NO_FILE)
  else
    let vres := verify e.sigData e.resultData
    if vres.verify_ok = false then
      if vres.error = some VerificationInterface.MISSING_KEY then
        some (some Status.MISSING_KEY)
      else if vres.error = some VerificationInterface.EXPIRED_KEY then
        some (some Status.EXPIRED_KEY)
      else some (some Status.INVALID_SIG)
    else if keys_mem keys e.name vres = false then
      some (some Status.MISSING_KEY)
    else
      match load e.resultData with
      | none => none
      | some m => if m ≠ ref then some (some Status.MISMATCH)
                  else some (some Status.OK)

/-! Concrete fixtures used to instantiate the theorems below on closed
inputs: a verifier, manifest loader, keys.txt content and signer
entries covering each classification branch. -/

/-- Fixture verifier: classification keyed on the result data. -/
def wVerify : String → String → VerificationResult := fun _sig res =>
  if res = "dataA" then ⟨true, some "F", "F", none⟩
  else if res = "dataB" then ⟨true, some "F", "F", none⟩
  else if res = "dataC" then ⟨false, none, "G", some VerificationInterface.MISSING_KEY⟩
  else if res = "dataD" then ⟨false, some "H", "H", some VerificationInterface.EXPIRED_KEY⟩
  else if res = "dataE" then ⟨true, some "E", "E", none⟩
  else if res = "dataG" then ⟨true, some "G", "G", none⟩
  else ⟨false, some "X", "X", some VerificationInterface.BAD⟩

/-- Fixture manifest loader. -/
def wLoad : String → Option String := fun d =>
  if d = "dataA" then some "M1"
  else if d = "dataB" then some "M1"
  else if d = "dataE" then some "M2"
  else if d = "dataG" then some "M1"
  else some "M0"

/-- Fixture keys.txt content: F speaks for alice, E for erin. -/
def wKeys : List (String × String) := [("F", "alice"), ("E", "erin")]

/-- Fixture signer directory entries. -/
def eAlice : SignerEntry := ⟨"alice", true, true, true, "sig", "dataA"⟩

/-- Fixture: bob submits a valid signature made by alice's key F. -/
def eBob : SignerEntry := ⟨"bob", true, true, true, "sig", "dataB"⟩

/-- Fixture: carol's key is missing from the keyring. -/
def eCarol : SignerEntry := ⟨"carol", true, true, true, "sig", "dataC"⟩

/-- Fixture: dave's key is expired. -/
def eDave : SignerEntry := ⟨"dave", true, true, true, "sig", "dataD"⟩

/-- Fixture: erin is trusted and valid but her manifest M2 differs. -/
def eErin : SignerEntry := ⟨"erin", true, true, true, "sig", "dataE"⟩

/-- Fixture: carol again, now with a valid signature from untrusted key
G (for the cross-build missing-key aggregation). -/
def eCarolG : SignerEntry := ⟨"carol", true, true, true, "sig", "dataG"⟩

/-! ### Single-step lemmas about `validate_signer` -/

/-- A non-directory entry is skipped without touching the state. -/
theorem validate_signer_skip (verify : String → String → VerificationResult)
    (load : String → Option String) (keys : List (String × String))
    (st : BState) (e : SignerEntry) (h : e.isDir = false) :
    validate_signer verify load keys st e = some st := by
  simp [validate_signer, h]

/-- A directory entry with a missing result or signature file gets
`Status.NO_FILE` and nothing else changes. -/
theorem validate_signer_nofile (verify : String → String → VerificationResult)
    (load : String → Option String) (keys : List (String × String))
    (st : BState) (e : SignerEntry) (h : e.isDir = true)
    (hf : e.hasResult = false ∨ e.hasSig = false) :
    validate_signer verify load keys st e =
      some { st with results := updStatus st.results e.name Status.NO_FILE } := by
  rcases hf with hf | hf <;> simp [validate_signer, h, hf]

/-- When cryptographic verification fails, the status is dictated by the
error code alone (`MISSING_KEY`/`EXPIRED_KEY`/`INVALID_SIG`), a `GPG`
missing-key bit is recorded exactly in the `MISSING_KEY` case, and a
`KEYSTXT` bit is recorded exactly when the pair is absent from keys.txt;
the reference and the mismatch records are untouched. -/
theorem validate_signer_badsig (verify : String → String → VerificationResult)
    (load : String → Option String) (keys : List (String × String))
    (st : BState) (e : SignerEntry) (h : e.isDir = true)
    (h1 : e.hasResult = true) (h2 : e.hasSig = true)
    (hok : (verify e.sigData e.resultData).verify_ok = false) :
    ∃ st', validate_signer verify load keys st e = some st' ∧
      st'.results e.name = some
        (if (verify e.sigData e.resultData).error =
            some VerificationInterface.MISSING_KEY then Status.MISSING_KEY
         else if (verify e.sigData e.resultData).error =
            some VerificationInterface.EXPIRED_KEY then Status.EXPIRED_KEY
         else Status.INVALID_SIG) ∧
      st'.missing (e.name, pyOrStr (verify e.sigData e.resultData).p_fingerprint
          (verify e.sigData e.resultData).s_fingerprint) =
        st.missing (e.name, pyOrStr (verify e.sigData e.resultData).p_fingerprint
          (verify e.sigData e.resultData).s_fingerprint) |||
        (if keys_mem keys e.name (verify e.sigData e.resultData) = false then
          Missing.KEYSTXT else 0) |||
        (if (verify e.sigData e.resultData).error =
            some VerificationInterface.MISSING_KEY then Missing.GPG else 0) ∧
      st'.reference = st.reference ∧
      st'.mismatches = st.mismatches := by
  by_cases hk : keys_mem keys e.name (verify e.sigData e.resultData) = false <;>
    by_cases he0 : (verify e.sigData e.resultData).error = some 0 <;>
    by_cases he2 : (verify e.sigData e.resultData).error = some 2 <;>
    simp [validate_signer, h, h1, h2, hok, hk, he0, he2, bumpMissing,
      updStatus, Nat.lor_assoc, VerificationInterface.MISSING_KEY,
      VerificationInterface.EXPIRED_KEY, Missing.GPG, Missing.KEYSTXT]

/-- When verification succeeds but the (fingerprint, signer) pair is not
in keys.txt, the signer gets `Status.MISSING_KEY`, a `KEYSTXT`
missing-key bit is recorded, and nothing else changes — in particular
the manifest is never loaded or compared. -/
theorem validate_signer_untrusted (verify : String → String → VerificationResult)
    (load : String → Option String) (keys : List (String × String))
    (st : BState) (e : SignerEntry) (h : e.isDir = true)
    (h1 : e.hasResult = true) (h2 : e.hasSig = true)
    (hok : (verify e.sigData e.resultData).verify_ok = true)
    (hk : keys_mem keys e.name (verify e.sigData e.resultData) = false) :
    validate_signer verify load keys st e = some
      { st with
        results := updStatus st.results e.name Status.MISSING_KEY,
        missing := bumpMissing st.missing
          (e.name, pyOrStr (verify e.sigData e.resultData).p_fingerprint
            (verify e.sigData e.resultData).s_fingerprint) Missing.KEYSTXT } := by
  simp [validate_signer, h, h1, h2, hok, hk]

/-- A trusted, validly-signed signer whose manifest fails to parse
aborts the evaluation of the whole build. -/
theorem validate_signer_load_fail (verify : String → String → VerificationResult)
    (load : String → Option String) (keys : List (String × String))
    (st : BState) (e : SignerEntry) (h : e.isDir = true)
    (h1 : e.hasResult = true) (h2 : e.hasSig = true)
    (hok : (verify e.sigData e.resultData).verify_ok = true)
    (hk : keys_mem keys e.name (verify e.sigData e.resultData) = true)
    (hl : load e.resultData = none) :
    validate_signer verify load keys st e = none := by
  simp [validate_signer, h, h1, h2, hok, hk, hl]

/-- A trusted, validly-signed signer with no reference established yet
gets `Status.OK` and its manifest becomes the reference. -/
theorem validate_signer_trusted_first (verify : String → String → VerificationResult)
    (load : String → Option String) (keys : List (String × String))
    (st : BState) (e : SignerEntry) (m : String) (h : e.isDir = true)
    (h1 : e.hasResult = true) (h2 : e.hasSig = true)
    (hok : (verify e.sigData e.resultData).verify_ok = true)
    (hk : keys_mem keys e.name (verify e.sigData e.resultData) = true)
    (hl : load e.resultData = some m) (href : st.reference = none) :
    validate_signer verify load keys st e = some
      { st with
        results := updStatus st.results e.name Status.OK,
        reference := some m } := by
  simp [validate_signer, h, h1, h2, hok, hk, hl, href]

/-- A trusted, validly-signed signer whose manifest equals the
established reference gets `Status.OK`. -/
theorem validate_signer_trusted_match (verify : String → String → VerificationResult)
    (load : String → Option String) (keys : List (String × String))
    (st : BState) (e : SignerEntry) (m : String) (h : e.isDir = true)
    (h1 : e.hasResult = true) (h2 : e.hasSig = true)
    (hok : (verify e.sigData e.resultData).verify_ok = true)
    (hk : keys_mem keys e.name (verify e.sigData e.resultData) = true)
    (hl : load e.resultData = some m) (href : st.reference = some m) :
    validate_signer verify load keys st e = some
      { st with results := updStatus st.results e.name Status.OK } := by
  simp [validate_signer, h, h1, h2, hok, hk, hl, href]

/-- A trusted, validly-signed signer whose manifest differs from the
established reference gets `Status.MISMATCH` and both manifests are
retained in the mismatch record. -/
theorem validate_signer_trusted_mismatch (verify : String → String → VerificationResult)
    (load : String → Option String) (keys : List (String × String))
    (st : BState) (e : SignerEntry) (m ref : String) (h : e.isDir = true)
    (h1 : e.hasResult = true) (h2 : e.hasSig = true)
    (hok : (verify e.sigData e.resultData).verify_ok = true)
    (hk : keys_mem keys e.name (verify e.sigData e.resultData) = true)
    (hl : load e.resultData = some m) (href : st.reference = some ref)
    (hne : m ≠ ref) :
    validate_signer verify load keys st e = some
      { st with
        results := updStatus st.results e.name Status.MISMATCH,
        mismatches := updMismatch st.mismatches e.name (m, ref) } := by
  simp [validate_signer, h, h1, h2, hok, hk, hl, href, hne]

/-- Processing one signer touches no other signer's result, mismatch
record or missing-key entries. -/
theorem validate_signer_frame (verify : String → String → VerificationResult)
    (load : String → Option String) (keys : List (String × String))
    (st : BState) (e : SignerEntry) (st' : BState)
    (hstep : validate_signer verify load keys st e = some st') :
    (∀ n, n ≠ e.name →
      st'.results n = st.results n ∧ st'.mismatches n = st.mismatches n) ∧
    (∀ p : String × String, p.1 ≠ e.name → st'.missing p = st.missing p) := by
  simp only [validate_signer] at hstep
  repeat' split at hstep
  all_goals try exact Option.noConfusion hstep
  all_goals injection hstep with hinj
  all_goals subst hinj
  all_goals
    refine ⟨fun n hn => ?_, fun p hp => ?_⟩
    · constructor <;> simp [updStatus, updMismatch, hn]
    · have hp' : ∀ x : String, p ≠ (e.name, x) := fun x hx => hp (by rw [hx])
      simp [bumpMissing, hp']

/-- Once a reference manifest is established it never changes. -/
theorem validate_signer_reference_some
    (verify : String → String → VerificationResult)
    (load : String → Option String) (keys : List (String × String))
    (st : BState) (e : SignerEntry) (st' : BState) (r : String)
    (href : st.reference = some r)
    (hstep : validate_signer verify load keys st e = some st') :
    st'.reference = some r := by
  simp only [validate_signer] at hstep
  repeat' split at hstep
  all_goals try exact Option.noConfusion hstep
  all_goals injection hstep with hinj
  all_goals subst hinj
  all_goals simp_all

/-- A signer that is not accepted (rejected before the manifest
comparison) never changes the reference. -/
theorem validate_signer_reference_not_accepted
    (verify : String → String → VerificationResult)
    (load : String → Option String) (keys : List (String × String))
    (st : BState) (e : SignerEntry) (st' : BState)
    (hacc : accepted verify keys e = false)
    (hstep : validate_signer verify load keys st e = some st') :
    st'.reference = st.reference := by
  simp only [validate_signer] at hstep
  repeat' split at hstep
  all_goals try exact Option.noConfusion hstep
  all_goals injection hstep with hinj
  all_goals subst hinj
  all_goals simp_all [accepted]

/-! ### Lemmas about the whole signer loop (a monadic fold) -/

/-- Folding over entries whose names all differ from `n` leaves the
result, mismatch record and missing-key entries of `n` unchanged. -/
theorem fold_frame (verify : String → String → VerificationResult)
    (load : String → Option String) (keys : List (String × String))
    (l : List SignerEntry) (st st' : BState) (n : String)
    (hn : ∀ x ∈ l, x.name ≠ n)
    (hfold : l.foldlM (validate_signer verify load keys) st = some st') :
    st'.results n = st.results n ∧ st'.mismatches n = st.mismatches n ∧
    (∀ f, st'.missing (n, f) = st.missing (n, f)) := by
  induction l generalizing st with
  | nil =>
    simp only [List.foldlM_nil] at hfold
    cases hfold
    exact ⟨rfl, rfl, fun _ => rfl⟩
  | cons e rest ih =>
    rw [List.foldlM_cons] at hfold
    rcases Option.bind_eq_some.mp hfold with ⟨st1, hstep, hrest⟩
    obtain ⟨hres, hmis⟩ := validate_signer_frame _ _ _ _ _ _ hstep
    have hen : n ≠ e.name := (hn e (List.mem_cons_self e rest)).symm
    obtain ⟨i1, i2, i3⟩ := ih st1 (fun x hx => hn x (List.mem_cons_of_mem _ hx)) hrest
    exact ⟨i1.trans (hres n hen).1, i2.trans (hres n hen).2,
      fun f => (i3 f).trans (hmis (n, f) hen)⟩

/-- Folding preserves an already-established reference manifest. -/
theorem fold_reference_some (verify : String → String → VerificationResult)
    (load : String → Option String) (keys : List (String × String))
    (l : List SignerEntry) (st st' : BState) (r : String)
    (href : st.reference = some r)
    (hfold : l.foldlM (validate_signer verify load keys) st = some st') :
    st'.reference = some r := by
  induction l generalizing st with
  | nil =>
    simp only [List.foldlM_nil] at hfold
    cases hfold
    exact href
  | cons e rest ih =>
    rw [List.foldlM_cons] at hfold
    rcases Option.bind_eq_some.mp hfold with ⟨st1, hstep, hrest⟩
    exact ih st1 (validate_signer_reference_some _ _ _ _ _ _ _ href hstep) hrest

/-- Folding over entries none of which is accepted leaves the reference
unchanged. -/
theorem fold_reference_not_accepted
    (verify : String → String → VerificationResult)
    (load : String → Option String) (keys : List (String × String))
    (l : List SignerEntry) (st st' : BState)
    (hacc : ∀ x ∈ l, accepted verify keys x = false)
    (hfold : l.foldlM (validate_signer verify load keys) st = some st') :
    st'.reference = st.reference := by
  induction l generalizing st with
  | nil =>
    simp only [List.foldlM_nil] at hfold
    cases hfold
    rfl
  | cons e rest ih =>
    rw [List.foldlM_cons] at hfold
    rcases Option.bind_eq_some.mp hfold with ⟨st1, hstep, hrest⟩
    have h1 := validate_signer_reference_not_accepted _ _ _ _ _ _
      (hacc e (List.mem_cons_self e rest)) hstep
    exact (ih st1 (fun x hx => hacc x (List.mem_cons_of_mem _ hx)) hrest).trans h1

/-- Splitting a successful fold at a designated entry. -/
theorem fold_entry_split (verify : String → String → VerificationResult)
    (load : String → Option String) (keys : List (String × String))
    (l1 l2 : List SignerEntry) (e : SignerEntry) (st st' : BState)
    (hfold : (l1 ++ e :: l2).foldlM (validate_signer verify load keys) st =
      some st') :
    ∃ st1 st2, l1.foldlM (validate_signer verify load keys) st = some st1 ∧
      validate_signer verify load keys st1 e = some st2 ∧
      l2.foldlM (validate_signer verify load keys) st2 = some st' := by
  rw [List.foldlM_append] at hfold
  rcases Option.bind_eq_some.mp hfold with ⟨st1, h1, hrest⟩
  rw [List.foldlM_cons] at hrest
  rcases Option.bind_eq_some.mp hrest with ⟨st2, h2, h3⟩
  exact ⟨st1, st2, h1, h2, h3⟩

/-- Splitting the no-duplicate-names hypothesis at a designated entry. -/
theorem nodup_split_name (l1 l2 : List SignerEntry) (e : SignerEntry)
    (hnd : ((l1 ++ e :: l2).map SignerEntry.name).Nodup) :
    (∀ x ∈ l1, x.name ≠ e.name) ∧ (∀ x ∈ l2, x.name ≠ e.name) := by
  rw [List.map_append, List.map_cons] at hnd
  constructor
  · intro x hx hne
    have hd := List.disjoint_of_nodup_append hnd
    exact hd (hne ▸ List.mem_map_of_mem SignerEntry.name hx)
      (List.mem_cons_self _ _)
  · intro x hx hne
    have h2 := (List.nodup_cons.mp (List.Nodup.of_append_right hnd)).1
    exact h2 (hne ▸ List.mem_map_of_mem SignerEntry.name hx)

/-- Inversion of a successful `validate_build` run on an existing build
directory: the pinned reference stage succeeded and the signer fold
produced the output triple. -/
theorem validate_build_some_inv (verify : String → String → VerificationResult)
    (load : String → Option String) (keys : List (String × String))
    (c : Option String) (es : List SignerEntry)
    (out : (String → Option Status) × (String × String → Nat) ×
      (String → Option (String × String)))
    (hrun : validate_build verify load keys c (some es) = some out) :
    ∃ r0 st, pinned_reference load c es = some r0 ∧
      es.foldlM (validate_signer verify load keys)
        { reference := r0, results := fun _ => none,
          missing := fun _ => 0, mismatches := fun _ => none } = some st ∧
      out = (st.results, st.missing, st.mismatches) := by
  simp only [validate_build] at hrun
  split at hrun
  · exact Option.noConfusion hrun
  · rename_i r0 hpr
    split at hrun
    · exact Option.noConfusion hrun
    · rename_i st hfold
      injection hrun with hinj
      exact ⟨r0, st, hpr, hfold, hinj.symm⟩

/-! ### Claim theorems about `validate_build` -/

/-- C1: a signer whose detached signature verifies but whose
(fingerprint, lowercased name) pair — under neither the primary nor the
signing fingerprint — is in the key registry gets `Status.MISSING_KEY`
from `validate_build`, and its manifest is never compared to the
reference (no mismatch record is produced for it). -/
theorem untrusted_valid_signature_rejected
    (verify : String → String → VerificationResult)
    (load : String → Option String) (keys : List (String × String))
    (compare_to : Option String) (entries : List SignerEntry)
    (e : SignerEntry) (hmem : e ∈ entries)
    (hnd : (entries.map SignerEntry.name).Nodup)
    (hdir : e.isDir = true) (hres : e.hasResult = true)
    (hsig : e.hasSig = true)
    (hok : (verify e.sigData e.resultData).verify_ok = true)
    (hk : keys_mem keys e.name (verify e.sigData e.resultData) = false)
    (hsome : (validate_build verify load keys compare_to
      (some entries)).isSome = true) :
    resultOf (validate_build verify load keys compare_to (some entries))
      e.name = some Status.MISSING_KEY ∧
    mismatchOf (validate_build verify load keys compare_to (some entries))
      e.name = none := by
  obtain ⟨out, hrun⟩ := Option.isSome_iff_exists.mp hsome
  obtain ⟨l1, l2, rfl⟩ := List.append_of_mem hmem
  obtain ⟨hn1, hn2⟩ := nodup_split_name l1 l2 e hnd
  obtain ⟨r0, st, hpr, hfold, hout⟩ :=
    validate_build_some_inv _ _ _ _ _ _ hrun
  obtain ⟨st1, st2, hf1, hstep, hf2⟩ :=
    fold_entry_split _ _ _ _ _ _ _ _ hfold
  rw [validate_signer_untrusted verify load keys st1 e hdir hres hsig hok hk]
    at hstep
  injection hstep with h2
  subst h2
  obtain ⟨g1, g2, g3⟩ := fold_frame _ _ _ l2 _ st e.name hn2 hf2
  obtain ⟨p1, p2, p3⟩ := fold_frame _ _ _ l1 _ st1 e.name hn1 hf1
  subst hout
  rw [hrun]
  refine ⟨?_, ?_⟩
  · show st.results e.name = some Status.MISSING_KEY
    rw [g1]
    simp [updStatus]
  · show st.mismatches e.name = none
    rw [g2]
    exact p2

/-- C2: when cryptographic verification fails, the status is dictated
solely by the error code (`MISSING_KEY` → `Status.MISSING_KEY`,
`EXPIRED_KEY` → `Status.EXPIRED_KEY`, anything else →
`Status.INVALID_SIG`) regardless of the key registry, and the recorded
missing-key bits for `(signer, best-available fingerprint)` are exactly
the `KEYSTXT` bit when the pair is absent from the registry (even in
these failure cases) plus the `GPG` bit in the `MISSING_KEY` case. -/
theorem crypto_failure_status_and_records
    (verify : String → String → VerificationResult)
    (load : String → Option String) (keys : List (String × String))
    (compare_to : Option String) (entries : List SignerEntry)
    (e : SignerEntry) (hmem : e ∈ entries)
    (hnd : (entries.map SignerEntry.name).Nodup)
    (hdir : e.isDir = true) (hres : e.hasResult = true)
    (hsig : e.hasSig = true)
    (hok : (verify e.sigData e.resultData).verify_ok = false)
    (hsome : (validate_build verify load keys compare_to
      (some entries)).isSome = true) :
    resultOf (validate_build verify load keys compare_to (some entries))
        e.name = some
      (if (verify e.sigData e.resultData).error =
          some VerificationInterface.MISSING_KEY then Status.MISSING_KEY
       else if (verify e.sigData e.resultData).error =
          some VerificationInterface.EXPIRED_KEY then Status.EXPIRED_KEY
       else Status.INVALID_SIG) ∧
    missingOf (validate_build verify load keys compare_to (some entries))
        (e.name, pyOrStr (verify e.sigData e.resultData).p_fingerprint
          (verify e.sigData e.resultData).s_fingerprint) =
      (if keys_mem keys e.name (verify e.sigData e.resultData) = false
        then Missing.KEYSTXT else 0) |||
      (if (verify e.sigData e.resultData).error =
          some VerificationInterface.MISSING_KEY then Missing.GPG else 0) := by
  obtain ⟨out, hrun⟩ := Option.isSome_iff_exists.mp hsome
  obtain ⟨l1, l2, rfl⟩ := List.append_of_mem hmem
  obtain ⟨hn1, hn2⟩ := nodup_split_name l1 l2 e hnd
  obtain ⟨r0, st, hpr, hfold, hout⟩ :=
    validate_build_some_inv _ _ _ _ _ _ hrun
  obtain ⟨st1, st2, hf1, hstep, hf2⟩ :=
    fold_entry_split _ _ _ _ _ _ _ _ hfold
  obtain ⟨st2', hstep', hsres, hsmis, _, _⟩ :=
    validate_signer_badsig verify load keys st1 e hdir hres hsig hok
  rw [hstep'] at hstep
  injection hstep with h2
  subst h2
  obtain ⟨g1, g2, g3⟩ := fold_frame _ _ _ l2 _ st e.name hn2 hf2
  obtain ⟨p1, p2, p3⟩ := fold_frame _ _ _ l1 _ st1 e.name hn1 hf1
  subst hout
  rw [hrun]
  refine ⟨?_, ?_⟩
  · show st.results e.name = _
    rw [g1, hsres]
  · show st.missing (e.name, _) = _
    rw [g3, hsmis, p3]
    show (0 : Nat) ||| _ ||| _ = _
    rw [Nat.zero_or]

/-- Processing one signer either leaves a cell unchanged or writes one
of the six reachable statuses; `Status.UNKNOWN_KEY` is never written. -/
theorem validate_signer_no_unknown
    (verify : String → String → VerificationResult)
    (load : String → Option String) (keys : List (String × String))
    (st : BState) (e : SignerEntry) (st' : BState)
    (hstep : validate_signer verify load keys st e = some st') (n : String) :
    st'.results n = st.results n ∨ st'.results n = some Status.OK ∨
    st'.results n = some Status.NO_FILE ∨
    st'.results n = some Status.MISSING_KEY ∨
    st'.results n = some Status.EXPIRED_KEY ∨
    st'.results n = some Status.INVALID_SIG ∨
    st'.results n = some Status.MISMATCH := by
  simp only [validate_signer] at hstep
  repeat' split at hstep
  all_goals try exact Option.noConfusion hstep
  all_goals injection hstep with hinj
  all_goals subst hinj
  all_goals by_cases hn : n = e.name <;> simp [updStatus, hn]

/-- The signer fold writes only the six reachable statuses. -/
theorem fold_no_unknown (verify : String → String → VerificationResult)
    (load : String → Option String) (keys : List (String × String))
    (l : List SignerEntry) (st st' : BState)
    (hfold : l.foldlM (validate_signer verify load keys) st = some st')
    (n : String) :
    st'.results n = st.results n ∨ st'.results n = some Status.OK ∨
    st'.results n = some Status.NO_FILE ∨
    st'.results n = some Status.MISSING_KEY ∨
    st'.results n = some Status.EXPIRED_KEY ∨
    st'.results n = some Status.INVALID_SIG ∨
    st'.results n = some Status.MISMATCH := by
  induction l generalizing st with
  | nil =>
    simp only [List.foldlM_nil] at hfold
    cases hfold
    exact Or.inl rfl
  | cons e rest ih =>
    rw [List.foldlM_cons] at hfold
    rcases Option.bind_eq_some.mp hfold with ⟨st1, hstep, hrest⟩
    rcases ih st1 hrest with h | h
    · rcases validate_signer_no_unknown _ _ _ _ _ _ hstep n with h' | h'
      · exact Or.inl (h.trans h')
      · exact Or.inr (h ▸ h')
    · exact Or.inr h

/-- C3: every cell of the final matrix is one of the six per-signer
statuses `OK`, `NO_FILE`, `MISSING_KEY`, `EXPIRED_KEY`, `INVALID_SIG`,
`MISMATCH`, or the absent-entry `NOT_SUBMITTED` sentinel (`none`); in
particular the declared `Status.UNKNOWN_KEY` is never produced. -/
theorem result_cell_among_seven
    (verify : String → String → VerificationResult)
    (load : String → Option String) (keys : List (String × String))
    (compare_to : Option String) (dir : Option (List SignerEntry))
    (n : String) :
    resultOf (validate_build verify load keys compare_to dir) n = none ∨
    resultOf (validate_build verify load keys compare_to dir) n =
      some Status.OK ∨
    resultOf (validate_build verify load keys compare_to dir) n =
      some Status.NO_FILE ∨
    resultOf (validate_build verify load keys compare_to dir) n =
      some Status.MISSING_KEY ∨
    resultOf (validate_build verify load keys compare_to dir) n =
      some Status.EXPIRED_KEY ∨
    resultOf (validate_build verify load keys compare_to dir) n =
      some Status.INVALID_SIG ∨
    resultOf (validate_build verify load keys compare_to dir) n =
      some Status.MISMATCH := by
  cases dir with
  | none => exact Or.inl rfl
  | some es =>
    cases hrun : validate_build verify load keys compare_to (some es) with
    | none => exact Or.inl rfl
    | some out =>
      obtain ⟨r0, st, hpr, hfold, hout⟩ :=
        validate_build_some_inv _ _ _ _ _ _ hrun
      have h := fold_no_unknown _ _ _ _ _ _ hfold n
      simp only [resultOf, hout]
      exact h

/-- C5: with no pinned reference signer, the first accepted signer in
directory-iteration order (here `A`, every entry before it being
rejected) becomes the reference and gets `Status.OK`, and any later
accepted signer `B` whose manifest `M2` differs from `A`'s manifest
`M1` gets `Status.MISMATCH`, with both manifests retained in the
mismatch record. -/
theorem first_trusted_wins_later_mismatch
    (verify : String → String → VerificationResult)
    (load : String → Option String) (keys : List (String × String))
    (l1 l2 l3 : List SignerEntry) (A B : SignerEntry) (M1 M2 : String)
    (hnd : ((l1 ++ A :: (l2 ++ B :: l3)).map SignerEntry.name).Nodup)
    (hl1 : ∀ x ∈ l1, accepted verify keys x = false)
    (hAdir : A.isDir = true) (hAres : A.hasResult = true)
    (hAsig : A.hasSig = true)
    (hAok : (verify A.sigData A.resultData).verify_ok = true)
    (hAk : keys_mem keys A.name (verify A.sigData A.resultData) = true)
    (hAload : load A.resultData = some M1)
    (hBdir : B.isDir = true) (hBres : B.hasResult = true)
    (hBsig : B.hasSig = true)
    (hBok : (verify B.sigData B.resultData).verify_ok = true)
    (hBk : keys_mem keys B.name (verify B.sigData B.resultData) = true)
    (hBload : load B.resultData = some M2)
    (hne : M2 ≠ M1)
    (hsome : (validate_build verify load keys none
      (some (l1 ++ A :: (l2 ++ B :: l3)))).isSome = true) :
    resultOf (validate_build verify load keys none
      (some (l1 ++ A :: (l2 ++ B :: l3)))) A.name = some Status.OK ∧
    resultOf (validate_build verify load keys none
      (some (l1 ++ A :: (l2 ++ B :: l3)))) B.name = some Status.MISMATCH ∧
    mismatchOf (validate_build verify load keys none
      (some (l1 ++ A :: (l2 ++ B :: l3)))) B.name = some (M2, M1) := by
  obtain ⟨out, hrun⟩ := Option.isSome_iff_exists.mp hsome
  obtain ⟨r0, st, hpr, hfold, hout⟩ :=
    validate_build_some_inv _ _ _ _ _ _ hrun
  have hr0 : r0 = none := by
    simp only [pinned_reference] at hpr
    exact (Option.some.inj hpr).symm
  subst hr0
  -- split at A
  obtain ⟨hnA1, hnA2⟩ := nodup_split_name l1 (l2 ++ B :: l3) A hnd
  obtain ⟨st1, st2, hf1, hstepA, hf2⟩ :=
    fold_entry_split _ _ _ _ _ _ _ _ hfold
  -- before A the reference is still unset
  have href1 : st1.reference = none := by
    rw [fold_reference_not_accepted _ _ _ l1 _ st1 hl1 hf1]
  rw [validate_signer_trusted_first verify load keys st1 A M1
    hAdir hAres hAsig hAok hAk hAload href1] at hstepA
  injection hstepA with h2
  subst h2
  -- A's cell survives the rest of the fold
  obtain ⟨gA1, _, _⟩ := fold_frame _ _ _ (l2 ++ B :: l3) _ st A.name hnA2 hf2
  -- split the rest at B
  have hndB : ((l2 ++ B :: l3).map SignerEntry.name).Nodup := by
    rw [List.map_append, List.map_cons] at hnd
    exact List.nodup_cons.mp (List.Nodup.of_append_right hnd) |>.2
  obtain ⟨hnB1, hnB2⟩ := nodup_split_name l2 l3 B hndB
  obtain ⟨st3, st4, hf3, hstepB, hf4⟩ :=
    fold_entry_split _ _ _ _ _ _ _ _ hf2
  have href3 : st3.reference = some M1 :=
    fold_reference_some _ _ _ l2 _ st3 M1 rfl hf3
  rw [validate_signer_trusted_mismatch verify load keys st3 B M2 M1
    hBdir hBres hBsig hBok hBk hBload href3 hne] at hstepB
  injection hstepB with h4
  subst h4
  obtain ⟨gB1, gB2, _⟩ := fold_frame _ _ _ l3 _ st B.name hnB2 hf4
  subst hout
  rw [hrun]
  refine ⟨?_, ?_, ?_⟩
  · show st.results A.name = some Status.OK
    rw [gA1]
    simp [updStatus]
  · show st.results B.name = some Status.MISMATCH
    rw [gB1]
    simp [updStatus]
  · show st.mismatches B.name = some (M2, M1)
    rw [gB2]
    simp [updMismatch]

/-- With a reference already in force, the status a step writes for its
own signer is exactly `pinned_signer_status`. -/
theorem validate_signer_pinned_char
    (verify : String → String → VerificationResult)
    (load : String → Option String) (keys : List (String × String))
    (st : BState) (e : SignerEntry) (st' : BState) (ref : String)
    (href : st.reference = some ref)
    (hstep : validate_signer verify load keys st e = some st') :
    ∃ c, pinned_signer_status verify load keys ref e = some c ∧
      st'.results e.name =
        (match c with
         | some s => some s
         | none => st.results e.name) := by
  simp only [validate_signer] at hstep
  repeat' split at hstep
  all_goals try exact Option.noConfusion hstep
  all_goals injection hstep with hinj
  all_goals subst hinj
  all_goals simp_all [pinned_signer_status, updStatus]

/-- Characterisation of a successful pinned fold: each signer's final
cell is determined by its own entry alone (looked up by name), not by
the iteration order. -/
theorem fold_results_pinned (verify : String → String → VerificationResult)
    (load : String → Option String) (keys : List (String × String))
    (ref : String) (l : List SignerEntry) (st st' : BState)
    (href : st.reference = some ref)
    (hnd : (l.map SignerEntry.name).Nodup)
    (hfold : l.foldlM (validate_signer verify load keys) st = some st')
    (n : String) :
    st'.results n =
      (match l.find? (fun e => e.name == n) with
       | some e =>
         (match pinned_signer_status verify load keys ref e with
          | some (some s) => some s
          | _ => st.results n)
       | none => st.results n) := by
  induction l generalizing st with
  | nil =>
    simp only [List.foldlM_nil] at hfold
    cases hfold
    simp
  | cons e rest ih =>
    rw [List.foldlM_cons] at hfold
    rcases Option.bind_eq_some.mp hfold with ⟨st1, hstep, hrest⟩
    have href1 : st1.reference = some ref :=
      validate_signer_reference_some _ _ _ _ _ _ _ href hstep
    rw [List.map_cons, List.nodup_cons] at hnd
    have ihh := ih st1 href1 hnd.2 hrest
    by_cases hn : e.name = n
    · have hfind : (e :: rest).find? (fun x => x.name == n) = some e :=
        List.find?_cons_of_pos _ (by simp [hn])
      have hnone : rest.find? (fun x => x.name == n) = none := by
        rw [List.find?_eq_none]
        intro x hx hbx
        exact hnd.1 (hn ▸ (by simpa using hbx) ▸ List.mem_map_of_mem SignerEntry.name hx)
      simp only [hnone] at ihh
      obtain ⟨c, hps, hres⟩ := validate_signer_pinned_char _ _ _ _ _ _ _ href hstep
      rw [hn] at hres
      cases c with
      | none =>
        simp only [hfind, hps]
        rw [ihh]
        exact hres
      | some s =>
        simp only [hfind, hps]
        rw [ihh]
        exact hres
    · rw [List.find?_cons_of_neg _ (by simp [hn])]
      have hfr := ((validate_signer_frame _ _ _ _ _ _ hstep).1 n
        (fun h => hn h.symm)).1
      rw [ihh, hfr]

/-- In a list with no duplicate names, `find?` for a name-determined
predicate gives the same result for any permutation of the list. -/
theorem find?_eq_of_perm (l1 l2 : List SignerEntry)
    (hperm : l1.Perm l2) (hnd : (l1.map SignerEntry.name).Nodup)
    (p : SignerEntry → Bool) (n : String)
    (hpn : ∀ e, p e = true → e.name = n) :
    l1.find? p = l2.find? p := by
  cases h1 : l1.find? p with
  | none =>
    cases h2 : l2.find? p with
    | none => rfl
    | some e =>
      exact absurd (List.find?_some h2)
        (List.find?_eq_none.mp h1 e (hperm.mem_iff.mpr
          (List.mem_of_find?_eq_some h2)))
  | some e1 =>
    cases h2 : l2.find? p with
    | none =>
      exact absurd (List.find?_some h1)
        (List.find?_eq_none.mp h2 e1 (hperm.mem_iff.mp
          (List.mem_of_find?_eq_some h1)))
    | some e2 =>
      have m1 : e1 ∈ l1 := List.mem_of_find?_eq_some h1
      have m2 : e2 ∈ l1 := hperm.mem_iff.mpr (List.mem_of_find?_eq_some h2)
      have : e1 = e2 := List.inj_on_of_nodup_map hnd m1 m2
        (by rw [hpn e1 (List.find?_some h1), hpn e2 (List.find?_some h2)])
      rw [this]

/-- C4: with a pinned reference signer configured, permuting the
iteration order of the signer directories never changes any signer's
status. -/
theorem pinned_reference_order_invariant
    (verify : String → String → VerificationResult)
    (load : String → Option String) (keys : List (String × String))
    (c : String) (es1 es2 : List SignerEntry)
    (hperm : es1.Perm es2)
    (hnd : (es1.map SignerEntry.name).Nodup)
    (h1 : (validate_build verify load keys (some c) (some es1)).isSome = true)
    (h2 : (validate_build verify load keys (some c) (some es2)).isSome = true)
    (n : String) :
    resultOf (validate_build verify load keys (some c) (some es1)) n =
    resultOf (validate_build verify load keys (some c) (some es2)) n := by
  obtain ⟨out1, hrun1⟩ := Option.isSome_iff_exists.mp h1
  obtain ⟨out2, hrun2⟩ := Option.isSome_iff_exists.mp h2
  obtain ⟨r1, st1, hpr1, hfold1, hout1⟩ :=
    validate_build_some_inv _ _ _ _ _ _ hrun1
  obtain ⟨r2, st2, hpr2, hfold2, hout2⟩ :=
    validate_build_some_inv _ _ _ _ _ _ hrun2
  -- the pinned manifest load is order-independent
  have hfind : es1.find? (fun e => e.name == c && e.isDir && e.hasResult) =
      es2.find? (fun e => e.name == c && e.isDir && e.hasResult) := by
    refine find?_eq_of_perm es1 es2 hperm hnd _ c (fun e he => ?_)
    have h' : (e.name == c) = true := by
      simp only [Bool.and_eq_true] at he
      exact he.1.1
    simpa using h'
  rw [pinned_reference, hfind] at hpr1
  rw [pinned_reference] at hpr2
  rw [hpr2] at hpr1
  injection hpr1 with hr
  subst hr
  -- both references are loaded manifests (`some m`), since compare_to is set
  obtain ⟨m, hm⟩ : ∃ m, r2 = some m := by
    rcases hfd : es2.find? (fun e => e.name == c && e.isDir && e.hasResult) with
      _ | e
    · simp only [hfd] at hpr2
      exact Option.noConfusion hpr2
    · simp only [hfd] at hpr2
      rcases hl : load e.resultData with _ | m
      · simp only [hl] at hpr2
        exact Option.noConfusion hpr2
      · simp only [hl] at hpr2
        exact ⟨m, (Option.some.inj hpr2).symm⟩
  subst hm
  have hnd2 : (es2.map SignerEntry.name).Nodup :=
    ((hperm.map SignerEntry.name).nodup_iff).mp hnd
  have e1 := fold_results_pinned _ _ _ m es1 _ st1 rfl hnd hfold1 n
  have e2 := fold_results_pinned _ _ _ m es2 _ st2 rfl hnd2 hfold2 n
  have hfindn : es1.find? (fun e => e.name == n) =
      es2.find? (fun e => e.name == n) :=
    find?_eq_of_perm es1 es2 hperm hnd _ n (fun e he => by simpa using he)
  subst hout1
  subst hout2
  rw [hrun1, hrun2]
  show st1.results n = st2.results n
  rw [e1, e2, hfindn]

/-- With a reference `r` in force, any mismatch record a step writes
carries `r` as its reference component. -/
theorem validate_signer_mismatch_ref
    (verify : String → String → VerificationResult)
    (load : String → Option String) (keys : List (String × String))
    (st : BState) (e : SignerEntry) (st' : BState) (r : String)
    (href : st.reference = some r)
    (hstep : validate_signer verify load keys st e = some st')
    (n : String) (pr : String × String)
    (hm : st'.mismatches n = some pr) :
    st.mismatches n = some pr ∨ pr.2 = r := by
  simp only [validate_signer] at hstep
  repeat' split at hstep
  all_goals try exact Option.noConfusion hstep
  all_goals injection hstep with hinj
  all_goals subst hinj
  all_goals try exact Or.inl hm
  all_goals
    by_cases hn : n = e.name
    · subst hn
      simp only [updMismatch, if_pos rfl] at hm
      injection hm with hm'
      subst hm'
      simp_all
    · simp only [updMismatch, if_neg hn] at hm
      exact Or.inl hm

/-- With a reference `r` in force throughout a fold, every mismatch
record present afterwards either was present before or carries `r`. -/
theorem fold_mismatch_ref (verify : String → String → VerificationResult)
    (load : String → Option String) (keys : List (String × String))
    (l : List SignerEntry) (st st' : BState) (r : String)
    (href : st.reference = some r)
    (hfold : l.foldlM (validate_signer verify load keys) st = some st')
    (n : String) (pr : String × String)
    (hm : st'.mismatches n = some pr) :
    st.mismatches n = some pr ∨ pr.2 = r := by
  induction l generalizing st with
  | nil =>
    simp only [List.foldlM_nil] at hfold
    cases hfold
    exact Or.inl hm
  | cons e rest ih =>
    rw [List.foldlM_cons] at hfold
    rcases Option.bind_eq_some.mp hfold with ⟨st1, hstep, hrest⟩
    have href1 : st1.reference = some r :=
      validate_signer_reference_some _ _ _ _ _ _ _ href hstep
    rcases ih st1 href1 hrest with h | h
    · exact validate_signer_mismatch_ref _ _ _ _ _ _ _ href hstep n pr h
    · exact Or.inr h

/-- C10: with a pinned reference signer `c` configured, (1) if no
directory named `c` with the expected result file exists in the build
directory, `validate_build` aborts with an exception (`none`) instead of
returning per-signer results; (2) the reference is obtained purely by
loading `c`'s result file — no signature verification and no
key-registry check is involved (the stage does not even take the
verifier or the keys); and (3) whenever the loaded reference manifest is
`m`, every mismatch record of the run carries `m` as the reference side
of the comparison, for every verifier and key registry. -/
theorem pinned_manifest_loaded_unverified_and_missing_file_aborts
    (verify : String → String → VerificationResult)
    (load : String → Option String) (keys : List (String × String))
    (c : String) (es : List SignerEntry) (m : String) :
    (es.find? (fun e => e.name == c && e.isDir && e.hasResult) = none →
      validate_build verify load keys (some c) (some es) = none) ∧
    (∀ e, es.find? (fun e => e.name == c && e.isDir && e.hasResult) = some e →
      pinned_reference load (some c) es = (load e.resultData).map some) ∧
    (pinned_reference load (some c) es = some (some m) →
      ∀ n pr, mismatchOf (validate_build verify load keys (some c) (some es))
          n = some pr →
        pr.2 = m) := by
  refine ⟨?_, ?_, ?_⟩
  · intro h
    simp [validate_build, pinned_reference, h]
  · intro e he
    simp only [pinned_reference, he]
    cases load e.resultData <;> rfl
  · intro hpr n pr hm
    cases hrun : validate_build verify load keys (some c) (some es) with
    | none =>
      rw [hrun] at hm
      exact Option.noConfusion hm
    | some out =>
      rw [hrun] at hm
      obtain ⟨r0, st, hpr', hfold, hout⟩ :=
        validate_build_some_inv _ _ _ _ _ _ hrun
      rw [hpr] at hpr'
      injection hpr' with hr
      subst hr
      subst hout
      have hm' : st.mismatches n = some pr := hm
      rcases fold_mismatch_ref _ _ _ es _ st m rfl hfold n pr hm' with h | h
      · exact Option.noConfusion h
      · exact h

/-- A set bit survives merging on the left. -/
theorem testBit_lor_left (x y : Nat) (i : Nat) (h : x.testBit i = true) :
    (x ||| y).testBit i = true := by
  simp [Nat.testBit_or, h]

/-- A set bit survives merging on the right. -/
theorem testBit_lor_right (x y : Nat) (i : Nat) (h : y.testBit i = true) :
    (x ||| y).testBit i = true := by
  simp [Nat.testBit_or, h]

/-- The `GPG` flag is bit 0. -/
theorem gpg_testBit : Missing.GPG.testBit 0 = true := by decide

/-- The `KEYSTXT` flag is bit 1. -/
theorem keystxt_testBit : Missing.KEYSTXT.testBit 1 = true := by decide

/-- C9: missing-key records are merged across builds by bitwise OR,
keyed by the `(signer, fingerprint)` pair: a signer missing from the
GPG keyring in build A (yielding the `GPG` bit there) and missing from
keys.txt in build B (yielding the `KEYSTXT` bit there), with the same
best-available fingerprint `f` in both, ends up with both bits set in
the aggregate for `(signer, f)`. -/
theorem missing_key_bits_aggregate_across_builds
    (verifyA : String → String → VerificationResult)
    (loadA : String → Option String) (keysA : List (String × String))
    (cA : Option String) (esA : List SignerEntry)
    (verifyB : String → String → VerificationResult)
    (loadB : String → Option String) (keysB : List (String × String))
    (cB : Option String) (esB : List SignerEntry)
    (eA eB : SignerEntry) (s f : String)
    (hAmem : eA ∈ esA) (hAnd : (esA.map SignerEntry.name).Nodup)
    (hAname : eA.name = s)
    (hAdir : eA.isDir = true) (hAres : eA.hasResult = true)
    (hAsig : eA.hasSig = true)
    (hAok : (verifyA eA.sigData eA.resultData).verify_ok = false)
    (hAerr : (verifyA eA.sigData eA.resultData).error =
      some VerificationInterface.MISSING_KEY)
    (hAf : pyOrStr (verifyA eA.sigData eA.resultData).p_fingerprint
      (verifyA eA.sigData eA.resultData).s_fingerprint = f)
    (hAsome : (validate_build verifyA loadA keysA cA (some esA)).isSome = true)
    (hBmem : eB ∈ esB) (hBnd : (esB.map SignerEntry.name).Nodup)
    (hBname : eB.name = s)
    (hBdir : eB.isDir = true) (hBres : eB.hasResult = true)
    (hBsig : eB.hasSig = true)
    (hBok : (verifyB eB.sigData eB.resultData).verify_ok = true)
    (hBk : keys_mem keysB eB.name (verifyB eB.sigData eB.resultData) = false)
    (hBf : pyOrStr (verifyB eB.sigData eB.resultData).p_fingerprint
      (verifyB eB.sigData eB.resultData).s_fingerprint = f)
    (hBsome : (validate_build verifyB loadB keysB cB (some esB)).isSome = true) :
    (merge_missing
      [missingOf (validate_build verifyA loadA keysA cA (some esA)),
       missingOf (validate_build verifyB loadB keysB cB (some esB))]
      (s, f)).testBit 0 = true ∧
    (merge_missing
      [missingOf (validate_build verifyA loadA keysA cA (some esA)),
       missingOf (validate_build verifyB loadB keysB cB (some esB))]
      (s, f)).testBit 1 = true := by
  subst hAname
  -- build A contributes the GPG bit
  have hA : (missingOf (validate_build verifyA loadA keysA cA (some esA))
      (eA.name, f)).testBit 0 = true := by
    obtain ⟨out, hrun⟩ := Option.isSome_iff_exists.mp hAsome
    obtain ⟨l1, l2, rfl⟩ := List.append_of_mem hAmem
    obtain ⟨hn1, hn2⟩ := nodup_split_name l1 l2 eA hAnd
    obtain ⟨r0, st, hpr, hfold, hout⟩ :=
      validate_build_some_inv _ _ _ _ _ _ hrun
    obtain ⟨st1, st2, hf1, hstep, hf2⟩ :=
      fold_entry_split _ _ _ _ _ _ _ _ hfold
    obtain ⟨st2', hstep', _, hsmis, _, _⟩ :=
      validate_signer_badsig verifyA loadA keysA st1 eA hAdir hAres hAsig hAok
    rw [hstep'] at hstep
    injection hstep with h2
    subst h2
    obtain ⟨_, _, g3⟩ := fold_frame _ _ _ l2 _ st eA.name hn2 hf2
    obtain ⟨_, _, p3⟩ := fold_frame _ _ _ l1 _ st1 eA.name hn1 hf1
    subst hout
    rw [hrun]
    show (st.missing (eA.name, f)).testBit 0 = true
    rw [hAf] at hsmis
    rw [g3, hsmis, hAerr]
    simp only [if_pos rfl]
    exact testBit_lor_right _ _ _ gpg_testBit
  -- build B contributes the KEYSTXT bit
  have hB : (missingOf (validate_build verifyB loadB keysB cB (some esB))
      (eA.name, f)).testBit 1 = true := by
    obtain ⟨out, hrun⟩ := Option.isSome_iff_exists.mp hBsome
    obtain ⟨l1, l2, rfl⟩ := List.append_of_mem hBmem
    obtain ⟨hn1, hn2⟩ := nodup_split_name l1 l2 eB hBnd
    obtain ⟨r0, st, hpr, hfold, hout⟩ :=
      validate_build_some_inv _ _ _ _ _ _ hrun
    obtain ⟨st1, st2, hf1, hstep, hf2⟩ :=
      fold_entry_split _ _ _ _ _ _ _ _ hfold
    rw [validate_signer_untrusted verifyB loadB keysB st1 eB
      hBdir hBres hBsig hBok hBk] at hstep
    injection hstep with h2
    subst h2
    obtain ⟨_, _, g3⟩ := fold_frame _ _ _ l2 _ st eB.name hn2 hf2
    obtain ⟨_, _, p3⟩ := fold_frame _ _ _ l1 _ st1 eB.name hn1 hf1
    subst hout
    rw [hrun]
    show (st.missing (eA.name, f)).testBit 1 = true
    rw [← hBname, g3 f]
    show (bumpMissing st1.missing
      (eB.name, pyOrStr (verifyB eB.sigData eB.resultData).p_fingerprint
        (verifyB eB.sigData eB.resultData).s_fingerprint) Missing.KEYSTXT
      (eB.name, f)).testBit 1 = true
    rw [hBf]
    simp only [bumpMissing, if_pos rfl]
    exact testBit_lor_right _ _ _ keystxt_testBit
  simp only [merge_missing, List.foldl_cons, List.foldl_nil]
  exact ⟨testBit_lor_left _ _ _ (testBit_lor_right _ _ _ hA),
    testBit_lor_right _ _ _ hB⟩

/-- C6: classification order of `verify_detached` on a single-signature
blob: an unknown key gives `error=MISSING_KEY` with no primary
fingerprint but the signing fingerprint still reported; a known but
expired key gives `error=EXPIRED_KEY`; a failed mathematical check on a
known, unexpired key gives `error=BAD`; otherwise the result is
`verify_ok=True` with no error and both fingerprints populated. -/
theorem verify_detached_classification (gk : String → String) (ok : Bool)
    (r : GpgVerifyResult) (s : GpgSignatureInfo)
    (hs : r.signatures = [s]) :
    (s.key_missing = true →
      verify_detached gk ok r = some
        { verify_ok := ok, p_fingerprint := none, s_fingerprint := s.fpr,
          error := some VerificationInterface.MISSING_KEY }) ∧
    (s.key_missing = false → s.key_expired = true →
      verify_detached gk ok r = some
        { verify_ok := ok, p_fingerprint := some (gk s.fpr),
          s_fingerprint := s.fpr,
          error := some VerificationInterface.EXPIRED_KEY }) ∧
    (s.key_missing = false → s.key_expired = false → ok = false →
      verify_detached gk ok r = some
        { verify_ok := false, p_fingerprint := some (gk s.fpr),
          s_fingerprint := s.fpr,
          error := some VerificationInterface.BAD }) ∧
    (s.key_missing = false → s.key_expired = false → ok = true →
      verify_detached gk ok r = some
        { verify_ok := true, p_fingerprint := some (gk s.fpr),
          s_fingerprint := s.fpr, error := none }) := by
  refine ⟨fun h1 => ?_, fun h1 h2 => ?_, fun h1 h2 h3 => ?_,
    fun h1 h2 h3 => ?_⟩
  · simp [verify_detached, hs, h1]
  · simp [verify_detached, hs, h1, h2]
  · simp [verify_detached, hs, h1, h2, h3]
  · simp [verify_detached, hs, h1, h2, h3]

/-- C8: `verify_detached` hits its assertion failure (modelled as
`none`) exactly when the signature blob holds a number of signatures
other than one; under the one-signature precondition it always returns
a result, so this fatal branch is unreachable. -/
theorem verify_detached_fatal_iff_not_single (gk : String → String)
    (ok : Bool) (r : GpgVerifyResult) :
    verify_detached gk ok r = none ↔ r.signatures.length ≠ 1 := by
  cases r with
  | mk sigs =>
    cases sigs with
    | nil => simp [verify_detached]
    | cons a t =>
      cases t with
      | nil =>
        constructor
        · intro h
          simp only [verify_detached] at h
          split at h <;> exact Option.noConfusion h
        · intro h'
          exact absurd rfl h'
      | cons b t2 =>
        constructor
        · intro _
          simp only [List.length_cons]
          omega
        · intro _
          rfl

/-! ### Lemmas about `pyReplace` and the build naming function -/

/-- `pyReplaceAux` on the empty list gives the empty list at any fuel. -/
theorem pyReplaceAux_nil (pat repl : List Char) (fuel : Nat) :
    pyReplaceAux pat repl fuel [] = [] := by
  cases fuel <;> rfl

/-- A list is a `isPrefixOf` of itself. -/
theorem isPrefixOf_self (l : List Char) : l.isPrefixOf l = true := by
  induction l with
  | nil => rfl
  | cons c rest ih => simp [List.isPrefixOf, ih]

/-- A list is a `isPrefixOf` of itself followed by anything. -/
theorem isPrefixOf_append_self (l t : List Char) :
    l.isPrefixOf (l ++ t) = true := by
  induction l with
  | nil => cases t <;> rfl
  | cons c rest ih => simp [List.isPrefixOf, ih]

/-- `pyReplaceAux` is insensitive to the fuel as long as it covers the
list length. -/
theorem pyReplaceAux_fuel (pat repl : List Char) :
    ∀ f1 f2 l, l.length ≤ f1 → l.length ≤ f2 →
      pyReplaceAux pat repl f1 l = pyReplaceAux pat repl f2 l := by
  intro f1
  induction f1 with
  | zero =>
    intro f2 l h1 _
    have : l = [] := List.length_eq_zero.mp (Nat.le_zero.mp h1)
    subst this
    rw [pyReplaceAux_nil, pyReplaceAux_nil]
  | succ f ih =>
    intro f2 l h1 h2
    cases l with
    | nil => rw [pyReplaceAux_nil, pyReplaceAux_nil]
    | cons c rest =>
      cases f2 with
      | zero =>
        exfalso
        simp only [List.length_cons, Nat.le_zero] at h2
        omega
      | succ g =>
        simp only [List.length_cons, Nat.succ_le_succ_iff] at h1 h2
        by_cases hc : pat ≠ [] ∧ pat.isPrefixOf (c :: rest)
        · simp only [pyReplaceAux, if_pos hc]
          congr 1
          exact ih g _ (le_trans (by simp only [List.length_drop]; omega) h1)
            (le_trans (by simp only [List.length_drop]; omega) h2)
        · simp only [pyReplaceAux, if_neg hc]
          congr 1
          exact ih g rest h1 h2

/-- If the pattern's first character never occurs in the list, the
replacement is the identity. -/
theorem pyReplaceAux_head_notin (pat repl : List Char) (ch : Char)
    (hh : pat.head? = some ch) :
    ∀ fuel l, ch ∉ l → pyReplaceAux pat repl fuel l = l := by
  intro fuel
  induction fuel with
  | zero => intro l _; rfl
  | succ f ih =>
    intro l hch
    cases l with
    | nil => rfl
    | cons c rest =>
      obtain ⟨pt, rfl⟩ : ∃ pt, pat = ch :: pt := by
        cases pat with
        | nil => exact Option.noConfusion hh
        | cons p0 pt => exact ⟨pt, by injection hh with h; rw [h]⟩
      have hne : ch ≠ c := fun h => hch (h ▸ List.mem_cons_self c rest)
      have hpre : ((ch :: pt).isPrefixOf (c :: rest)) = false := by
        simp [List.isPrefixOf, hne]
      simp only [pyReplaceAux, hpre]
      rw [ih rest (fun h => hch (List.mem_cons_of_mem c h))]
      simp

/-- `pyReplace` by a pattern whose first character never occurs is the
identity. -/
theorem pyReplace_head_notin (pat repl l : List Char) (ch : Char)
    (hh : pat.head? = some ch) (hc : ch ∉ l) :
    pyReplace pat repl l = l :=
  pyReplaceAux_head_notin pat repl ch hh _ l hc

/-- Replacing a pattern that occurs exactly as the final segment, its
first character not occurring earlier. -/
theorem pyReplaceAux_append_pat (pat repl : List Char) (ch : Char)
    (hh : pat.head? = some ch) :
    ∀ fuel xs, (xs ++ pat).length ≤ fuel → ch ∉ xs →
      pyReplaceAux pat repl fuel (xs ++ pat) = xs ++ repl := by
  intro fuel
  induction fuel with
  | zero =>
    intro xs h1 _
    exfalso
    cases pat with
    | nil => exact Option.noConfusion hh
    | cons p0 pt => simp [Nat.le_zero] at h1
  | succ f ih =>
    intro xs h1 hx
    obtain ⟨pt, rfl⟩ : ∃ pt, pat = ch :: pt := by
      cases pat with
      | nil => exact Option.noConfusion hh
      | cons p0 pt => exact ⟨pt, by injection hh with h; rw [h]⟩
    cases xs with
    | nil =>
      show pyReplaceAux (ch :: pt) repl (f + 1) (ch :: pt) = [] ++ repl
      have hc : (ch :: pt) ≠ [] ∧ (ch :: pt).isPrefixOf (ch :: pt) :=
        ⟨by simp, isPrefixOf_self _⟩
      simp only [pyReplaceAux, if_pos hc]
      have : (ch :: pt).length - 1 = pt.length := by simp
      rw [this, List.drop_length, pyReplaceAux_nil]
      simp
    | cons x xs' =>
      have hne : ch ≠ x := fun h => hx (h ▸ List.mem_cons_self x xs')
      have hpre : ((ch :: pt).isPrefixOf (x :: (xs' ++ (ch :: pt)))) = false := by
        simp [List.isPrefixOf, hne]
      show pyReplaceAux (ch :: pt) repl (f + 1) (x :: (xs' ++ (ch :: pt))) =
        x :: (xs' ++ repl)
      have hlen : (xs' ++ (ch :: pt)).length ≤ f := by
        simp only [List.cons_append, List.length_cons, List.length_append] at h1
        simp only [List.length_append, List.length_cons]
        omega
      simp only [pyReplaceAux, hpre]
      rw [ih xs' hlen (fun h => hx (List.mem_cons_of_mem x h))]
      simp

/-- `pyReplace` on a list ending in the pattern, whose first character
does not occur earlier, replaces exactly that final occurrence. -/
theorem pyReplace_append_pat (pat repl xs : List Char) (ch : Char)
    (hh : pat.head? = some ch) (hx : ch ∉ xs) :
    pyReplace pat repl (xs ++ pat) = xs ++ repl :=
  pyReplaceAux_append_pat pat repl ch hh _ xs (Nat.le_refl _) hx

/-- `pyReplace` on a list starting with the pattern replaces it and
continues on the remainder. -/
theorem pyReplace_pat_self (pat repl ys : List Char) (hp : pat ≠ []) :
    pyReplace pat repl (pat ++ ys) = repl ++ pyReplace pat repl ys := by
  cases pat with
  | nil => exact absurd rfl hp
  | cons p0 pt =>
    show pyReplaceAux (p0 :: pt) repl ((p0 :: pt ++ ys).length)
      (p0 :: (pt ++ ys)) = repl ++ pyReplace (p0 :: pt) repl ys
    have hlen : (p0 :: pt ++ ys).length = (pt ++ ys).length + 1 := by simp
    rw [hlen]
    have hc : (p0 :: pt) ≠ [] ∧ (p0 :: pt).isPrefixOf (p0 :: (pt ++ ys)) :=
      ⟨by simp, by simp [List.isPrefixOf, isPrefixOf_append_self pt ys]⟩
    simp only [pyReplaceAux, if_pos hc]
    congr 1
    have hdrop : (p0 :: pt).length - 1 = pt.length := by simp
    rw [hdrop, List.drop_left]
    exact pyReplaceAux_fuel _ _ _ _ ys (by simp) (Nat.le_refl _)

/-- A successfully parsed version component consists of digits only. -/
theorem digitsToNat?_all_digits (cs : List Char) (n : Nat)
    (h : digitsToNat? cs = some n) : ∀ c ∈ cs, c.isDigit = true := by
  simp only [digitsToNat?] at h
  split at h
  · rename_i hc
    intro c hcmem
    exact List.all_eq_true.mp hc.2 c hcmem
  · exact Option.noConfusion h

/-- A character that is neither a digit nor the dot does not occur in
the textual `major` version `v0 ++ "." ++ v1`. -/
theorem char_not_mem_major (v0 v1 : List Char) (a b : Nat)
    (ha : digitsToNat? v0 = some a) (hb : digitsToNat? v1 = some b)
    (ch : Char) (hd : ch.isDigit = false) (hdot : ch ≠ '.') :
    ch ∉ v0 ++ '.' :: v1 := by
  intro hmem
  rcases List.mem_append.mp hmem with h | h
  · rw [digitsToNat?_all_digits v0 a ha ch h] at hd
    exact Bool.noConfusion hd
  · rcases List.mem_cons.mp h with h | h
    · exact hdot h
    · rw [digitsToNat?_all_digits v1 b hb ch h] at hd
      exact Bool.noConfusion hd

/-- C7 counterexample: at release `0.21.0` — which is at or above the
`(0, 19)` threshold — the `osx-signed` variant's package name is the
fixed `bitcoin-dmg-signer`, which does not carry the `bitcoin-core-`
prefix; so it is not the case that every variant's package name uses
the `bitcoin-core-` prefix from `(0, 19)` on. -/
theorem package_prefix_claim_counterexample :
    package_name_at "0.21.0" 3 = some "bitcoin-dmg-signer" ∧
    "bitcoin-core-".data.isPrefixOf "bitcoin-dmg-signer".data = false := by
  decide

/-- C7 amended: `get_builds_for` yields the five build variants in the
fixed order linux, osx-unsigned, win-unsigned, osx-signed, win-signed;
for the first three the package name is `bitcoin-core-<variant>-<major>`
when `(major, minor) >= (0, 19)` and `bitcoin-<variant>-<major>` below
that threshold, while the `osx-signed` and `win-signed` package names
are the version-independent `bitcoin-dmg-signer` and
`bitcoin-win-signer` (which carry the `bitcoin-` prefix at every
version). -/
theorem get_builds_for_characterization (version : String)
    (v0 v1 : List Char) (rest : List (List Char)) (a b : Nat)
    (hsplit : pySplitDot version.data = v0 :: v1 :: rest)
    (ha : digitsToNat? v0 = some a) (hb : digitsToNat? v1 = some b) :
    ((a = 0 ∧ b < 19) → get_builds_for version = some
      [⟨"linux", ⟨version.data ++ '-' :: "linux".data⟩,
        ⟨"bitcoin-linux-".data ++ (v0 ++ '.' :: v1)⟩⟩,
       ⟨"osx-unsigned", ⟨version.data ++ '-' :: "osx-unsigned".data⟩,
        ⟨"bitcoin-osx-".data ++ (v0 ++ '.' :: v1)⟩⟩,
       ⟨"win-unsigned", ⟨version.data ++ '-' :: "win-unsigned".data⟩,
        ⟨"bitcoin-win-".data ++ (v0 ++ '.' :: v1)⟩⟩,
       ⟨"osx-signed", ⟨version.data ++ '-' :: "osx-signed".data⟩,
        "bitcoin-dmg-signer"⟩,
       ⟨"win-signed", ⟨version.data ++ '-' :: "win-signed".data⟩,
        "bitcoin-win-signer"⟩]) ∧
    (¬(a = 0 ∧ b < 19) → get_builds_for version = some
      [⟨"linux", ⟨version.data ++ '-' :: "linux".data⟩,
        ⟨"bitcoin-core-linux-".data ++ (v0 ++ '.' :: v1)⟩⟩,
       ⟨"osx-unsigned", ⟨version.data ++ '-' :: "osx-unsigned".data⟩,
        ⟨"bitcoin-core-osx-".data ++ (v0 ++ '.' :: v1)⟩⟩,
       ⟨"win-unsigned", ⟨version.data ++ '-' :: "win-unsigned".data⟩,
        ⟨"bitcoin-core-win-".data ++ (v0 ++ '.' :: v1)⟩⟩,
       ⟨"osx-signed", ⟨version.data ++ '-' :: "osx-signed".data⟩,
        "bitcoin-dmg-signer"⟩,
       ⟨"win-signed", ⟨version.data ++ '-' :: "win-signed".data⟩,
        "bitcoin-win-signer"⟩]) := by
  have hbM : 'b' ∉ v0 ++ '.' :: v1 :=
    char_not_mem_major v0 v1 a b ha hb 'b' (by decide) (by decide)
  have r1 : pyReplace "<major>".data (v0 ++ '.' :: v1)
      "bitcoin-core-linux-<major>".data =
      "bitcoin-core-linux-".data ++ (v0 ++ '.' :: v1) := by
    have e : "bitcoin-core-linux-<major>".data =
        "bitcoin-core-linux-".data ++ "<major>".data := by decide
    rw [e]
    exact pyReplace_append_pat _ _ _ '<' (by decide) (by decide)
  have r2 : pyReplace "<major>".data (v0 ++ '.' :: v1)
      "bitcoin-core-osx-<major>".data =
      "bitcoin-core-osx-".data ++ (v0 ++ '.' :: v1) := by
    have e : "bitcoin-core-osx-<major>".data =
        "bitcoin-core-osx-".data ++ "<major>".data := by decide
    rw [e]
    exact pyReplace_append_pat _ _ _ '<' (by decide) (by decide)
  have r3 : pyReplace "<major>".data (v0 ++ '.' :: v1)
      "bitcoin-core-win-<major>".data =
      "bitcoin-core-win-".data ++ (v0 ++ '.' :: v1) := by
    have e : "bitcoin-core-win-<major>".data =
        "bitcoin-core-win-".data ++ "<major>".data := by decide
    rw [e]
    exact pyReplace_append_pat _ _ _ '<' (by decide) (by decide)
  have r4 : pyReplace "<major>".data (v0 ++ '.' :: v1)
      "bitcoin-dmg-signer".data = "bitcoin-dmg-signer".data :=
    pyReplace_head_notin _ _ _ '<' (by decide) (by decide)
  have r5 : pyReplace "<major>".data (v0 ++ '.' :: v1)
      "bitcoin-win-signer".data = "bitcoin-win-signer".data :=
    pyReplace_head_notin _ _ _ '<' (by decide) (by decide)
  have g1 : pyReplace "bitcoin-core".data "bitcoin".data
      ("bitcoin-core-linux-".data ++ (v0 ++ '.' :: v1)) =
      "bitcoin-linux-".data ++ (v0 ++ '.' :: v1) := by
    have e0 : "bitcoin-core-linux-".data =
        "bitcoin-core".data ++ "-linux-".data := by decide
    rw [e0, List.append_assoc, pyReplace_pat_self _ _ _ (by decide)]
    have hnl : 'b' ∉ "-linux-".data ++ (v0 ++ '.' :: v1) := by
      intro h
      rcases List.mem_append.mp h with h | h
      · revert h
        decide
      · exact hbM h
    have e1 : "bitcoin-linux-".data = "bitcoin".data ++ "-linux-".data := by decide
    rw [pyReplace_head_notin _ _ _ 'b' (by decide) hnl, e1, List.append_assoc]
  have g2 : pyReplace "bitcoin-core".data "bitcoin".data
      ("bitcoin-core-osx-".data ++ (v0 ++ '.' :: v1)) =
      "bitcoin-osx-".data ++ (v0 ++ '.' :: v1) := by
    have e0 : "bitcoin-core-osx-".data =
        "bitcoin-core".data ++ "-osx-".data := by decide
    rw [e0, List.append_assoc, pyReplace_pat_self _ _ _ (by decide)]
    have hnl : 'b' ∉ "-osx-".data ++ (v0 ++ '.' :: v1) := by
      intro h
      rcases List.mem_append.mp h with h | h
      · revert h
        decide
      · exact hbM h
    have e1 : "bitcoin-osx-".data = "bitcoin".data ++ "-osx-".data := by decide
    rw [pyReplace_head_notin _ _ _ 'b' (by decide) hnl, e1, List.append_assoc]
  have g3 : pyReplace "bitcoin-core".data "bitcoin".data
      ("bitcoin-core-win-".data ++ (v0 ++ '.' :: v1)) =
      "bitcoin-win-".data ++ (v0 ++ '.' :: v1) := by
    have e0 : "bitcoin-core-win-".data =
        "bitcoin-core".data ++ "-win-".data := by decide
    rw [e0, List.append_assoc, pyReplace_pat_self _ _ _ (by decide)]
    have hnl : 'b' ∉ "-win-".data ++ (v0 ++ '.' :: v1) := by
      intro h
      rcases List.mem_append.mp h with h | h
      · revert h
        decide
      · exact hbM h
    have e1 : "bitcoin-win-".data = "bitcoin".data ++ "-win-".data := by decide
    rw [pyReplace_head_notin _ _ _ 'b' (by decide) hnl, e1, List.append_assoc]
  have g4 : pyReplace "bitcoin-core".data "bitcoin".data
      "bitcoin-dmg-signer".data = "bitcoin-dmg-signer".data := by decide
  have g5 : pyReplace "bitcoin-core".data "bitcoin".data
      "bitcoin-win-signer".data = "bitcoin-win-signer".data := by decide
  constructor
  · intro hc
    simp only [get_builds_for, hsplit, ha, hb, BUILDS, List.map_cons,
      List.map_nil, if_pos hc, r1, r2, r3, r4, r5, g1, g2, g3, g4, g5]
  · intro hc
    simp only [get_builds_for, hsplit, ha, hb, BUILDS, List.map_cons,
      List.map_nil, if_neg hc, r1, r2, r3, r4, r5]

/-! ### Concrete instantiations of the claim theorems -/

/-- Witness for C1: bob's validly-signed submission under alice's key F
(bound only to alice in keys.txt) is rejected as `MISSING_KEY` and never
compared. -/
theorem untrusted_valid_signature_rejected_witness :
    resultOf (validate_build wVerify wLoad wKeys none (some [eAlice, eBob]))
      "bob" = some Status.MISSING_KEY ∧
    mismatchOf (validate_build wVerify wLoad wKeys none (some [eAlice, eBob]))
      "bob" = none :=
  untrusted_valid_signature_rejected wVerify wLoad wKeys none
    [eAlice, eBob] eBob (by decide) (by decide) (by decide) (by decide)
    (by decide) (by decide) (by decide) (by decide)

/-- Witness for C2: carol's missing-key failure yields
`Status.MISSING_KEY` and the aggregate `GPG ||| KEYSTXT` bits for
`(carol, G)`. -/
theorem crypto_failure_status_and_records_witness :
    resultOf (validate_build wVerify wLoad wKeys none (some [eCarol]))
      "carol" = some Status.MISSING_KEY ∧
    missingOf (validate_build wVerify wLoad wKeys none (some [eCarol]))
      ("carol", "G") = 3 :=
  crypto_failure_status_and_records wVerify wLoad wKeys none [eCarol] eCarol
    (by decide) (by decide) (by decide) (by decide) (by decide) (by decide)
    (by decide)

/-- Witness for C4: with the reference pinned to alice, swapping the
iteration order of alice and erin leaves erin's status unchanged. -/
theorem pinned_reference_order_invariant_witness :
    resultOf (validate_build wVerify wLoad wKeys (some "alice")
      (some [eAlice, eErin])) "erin" =
    resultOf (validate_build wVerify wLoad wKeys (some "alice")
      (some [eErin, eAlice])) "erin" :=
  pinned_reference_order_invariant wVerify wLoad wKeys "alice"
    [eAlice, eErin] [eErin, eAlice] (by decide) (by decide) (by decide)
    (by decide) "erin"

/-- Witness for C5: with order `[alice, erin]` alice (manifest M1) gets
`OK` and erin (manifest M2) gets `MISMATCH` with record `(M2, M1)`;
with the reversed order the roles swap. -/
theorem first_trusted_wins_later_mismatch_witness :
    (resultOf (validate_build wVerify wLoad wKeys none
        (some [eAlice, eErin])) "alice" = some Status.OK ∧
      resultOf (validate_build wVerify wLoad wKeys none
        (some [eAlice, eErin])) "erin" = some Status.MISMATCH ∧
      mismatchOf (validate_build wVerify wLoad wKeys none
        (some [eAlice, eErin])) "erin" = some ("M2", "M1")) ∧
    (resultOf (validate_build wVerify wLoad wKeys none
        (some [eErin, eAlice])) "erin" = some Status.OK ∧
      resultOf (validate_build wVerify wLoad wKeys none
        (some [eErin, eAlice])) "alice" = some Status.MISMATCH ∧
      mismatchOf (validate_build wVerify wLoad wKeys none
        (some [eErin, eAlice])) "alice" = some ("M1", "M2")) := by
  constructor
  · exact first_trusted_wins_later_mismatch wVerify wLoad wKeys [] [] []
      eAlice eErin "M1" "M2" (by decide)
      (fun x hx => absurd hx (List.not_mem_nil x)) (by decide) (by decide)
      (by decide) (by decide) (by decide) (by decide) (by decide) (by decide)
      (by decide) (by decide) (by decide) (by decide) (by decide) (by decide)
  · exact first_trusted_wins_later_mismatch wVerify wLoad wKeys [] [] []
      eErin eAlice "M2" "M1" (by decide)
      (fun x hx => absurd hx (List.not_mem_nil x)) (by decide) (by decide)
      (by decide) (by decide) (by decide) (by decide) (by decide) (by decide)
      (by decide) (by decide) (by decide) (by decide) (by decide) (by decide)

/-- Witness for C6: one concrete outcome per classification branch. -/
theorem verify_detached_classification_witness :
    verify_detached (fun _ => "P") true ⟨[⟨"S", true, false⟩]⟩ =
      some ⟨true, none, "S", some VerificationInterface.MISSING_KEY⟩ ∧
    verify_detached (fun _ => "P") false ⟨[⟨"S", false, true⟩]⟩ =
      some ⟨false, some "P", "S", some VerificationInterface.EXPIRED_KEY⟩ ∧
    verify_detached (fun _ => "P") false ⟨[⟨"S", false, false⟩]⟩ =
      some ⟨false, some "P", "S", some VerificationInterface.BAD⟩ ∧
    verify_detached (fun _ => "P") true ⟨[⟨"S", false, false⟩]⟩ =
      some ⟨true, some "P", "S", none⟩ := by
  refine ⟨?_, ?_, ?_, ?_⟩
  · exact (verify_detached_classification _ true _ ⟨"S", true, false⟩ rfl).1
      rfl
  · exact (verify_detached_classification _ false _ ⟨"S", false, true⟩
      rfl).2.1 rfl rfl
  · exact (verify_detached_classification _ false _ ⟨"S", false, false⟩
      rfl).2.2.1 rfl rfl rfl
  · exact (verify_detached_classification _ true _ ⟨"S", false, false⟩
      rfl).2.2.2 rfl rfl rfl

/-- Witness for the amended C7: the concrete build tables of releases
0.18.0 (below the threshold) and 0.21.0 (above it). -/
theorem get_builds_for_characterization_witness :
    get_builds_for "0.18.0" = some
      [⟨"linux", "0.18.0-linux", "bitcoin-linux-0.18"⟩,
       ⟨"osx-unsigned", "0.18.0-osx-unsigned", "bitcoin-osx-0.18"⟩,
       ⟨"win-unsigned", "0.18.0-win-unsigned", "bitcoin-win-0.18"⟩,
       ⟨"osx-signed", "0.18.0-osx-signed", "bitcoin-dmg-signer"⟩,
       ⟨"win-signed", "0.18.0-win-signed", "bitcoin-win-signer"⟩] ∧
    get_builds_for "0.21.0" = some
      [⟨"linux", "0.21.0-linux", "bitcoin-core-linux-0.21"⟩,
       ⟨"osx-unsigned", "0.21.0-osx-unsigned", "bitcoin-core-osx-0.21"⟩,
       ⟨"win-unsigned", "0.21.0-win-unsigned", "bitcoin-core-win-0.21"⟩,
       ⟨"osx-signed", "0.21.0-osx-signed", "bitcoin-dmg-signer"⟩,
       ⟨"win-signed", "0.21.0-win-signed", "bitcoin-win-signer"⟩] := by
  constructor
  · have h := (get_builds_for_characterization "0.18.0" "0".data "18".data
      ["0".data] 0 18 (by decide) (by decide) (by decide)).1 (by decide)
    rw [h]
    decide
  · have h := (get_builds_for_characterization "0.21.0" "0".data "21".data
      ["0".data] 0 21 (by decide) (by decide) (by decide)).2 (by decide)
    rw [h]
    decide

/-- Witness for C9: carol, missing from the keyring in build A
(fingerprint G) and untrusted in build B (same fingerprint), aggregates
both missing-key bits for `(carol, G)`. -/
theorem missing_key_bits_aggregate_across_builds_witness :
    (merge_missing
      [missingOf (validate_build wVerify wLoad wKeys none (some [eCarol])),
       missingOf (validate_build wVerify wLoad wKeys none (some [eCarolG]))]
      ("carol", "G")).testBit 0 = true ∧
    (merge_missing
      [missingOf (validate_build wVerify wLoad wKeys none (some [eCarol])),
       missingOf (validate_build wVerify wLoad wKeys none (some [eCarolG]))]
      ("carol", "G")).testBit 1 = true :=
  missing_key_bits_aggregate_across_builds wVerify wLoad wKeys none [eCarol]
    wVerify wLoad wKeys none [eCarolG] eCarol eCarolG "carol" "G"
    (by decide) (by decide) (by decide) (by decide) (by decide) (by decide)
    (by decide) (by decide) (by decide) (by decide) (by decide) (by decide)
    (by decide) (by decide) (by decide) (by decide) (by decide) (by decide)
    (by decide) (by decide)

/-- Witness for C10: pinning to the absent signer zoe aborts the build
evaluation; pinning to alice makes erin's mismatch record carry alice's
manifest M1 as the reference side. -/
theorem pinned_manifest_loaded_unverified_witness :
    validate_build wVerify wLoad wKeys (some "zoe") (some [eAlice]) = none ∧
    pinned_reference wLoad (some "alice") [eAlice, eErin] =
      (wLoad eAlice.resultData).map some ∧
    ("M2", "M1").2 = "M1" := by
  refine ⟨?_, ?_, ?_⟩
  · exact (pinned_manifest_loaded_unverified_and_missing_file_aborts
      wVerify wLoad wKeys "zoe" [eAlice] "M1").1 (by decide)
  · exact (pinned_manifest_loaded_unverified_and_missing_file_aborts
      wVerify wLoad wKeys "alice" [eAlice, eErin] "M1").2.1 eAlice (by decide)
  · exact (pinned_manifest_loaded_unverified_and_missing_file_aborts
      wVerify wLoad wKeys "alice" [eAlice, eErin] "M1").2.2 (by decide)
      "erin" ("M2", "M1") (by decide)

end GitianVerify
